import Mathlib

/-!
Shallow embedding of the `KeepaProduct` sales-estimation pipeline from
`src/services/keepa_service.py` (authoritative copy) together with
`generate_monthly_summary` from `src/sales_estimator_tab.py`.

Modelling conventions:
* timestamps are natural numbers counting minutes since the Unix epoch
  (the provider's native minute resolution; one calendar day = 1440 minutes);
* pandas `NaN` cells are `Option ℚ` set to `none`; column arithmetic on a
  `NaN` operand yields `NaN`, sums skip `NaN` (empty sum is 0), means/mins/
  maxes over all-`NaN` data are `NaN`;
* pandas `merge(..., how="outer", left_index=True, right_index=True)` is a
  sorted union of the two key sets, absent cells `NaN`; `.ffill()` carries the
  last non-`NaN` value of each column downwards;
* python floats are modelled as exact rationals; `round` is numpy's
  round-half-to-even, `astype(int)` / `int(...)` truncate toward zero.
-/

namespace KeepaModel

set_option maxRecDepth 8000

/-! ### Kernel-reducible rational arithmetic

The standard `Rat` operations are `@[irreducible]`, which blocks `decide` on
concrete pipeline runs; the pipeline therefore computes with the following
wrappers, each proved equal to the standard operation. -/

def qadd (a b : ℚ) : ℚ := mkRat (a.num * b.den + b.num * a.den) (a.den * b.den)

theorem qadd_eq (a b : ℚ) : qadd a b = a + b := (Rat.add_def' a b).symm

def qmul (a b : ℚ) : ℚ := mkRat (a.num * b.num) (a.den * b.den)

theorem qmul_eq (a b : ℚ) : qmul a b = a * b := (Rat.mul_eq_mkRat a b).symm

def qdiv (a b : ℚ) : ℚ := Rat.divInt (a.num * b.den) (a.den * b.num)

theorem qdiv_eq (a b : ℚ) : qdiv a b = a / b := (Rat.div_def' a b).symm

def qsub (a b : ℚ) : ℚ := qadd a (-b)

theorem qsub_eq (a b : ℚ) : qsub a b = a - b := by
  rw [qsub, qadd_eq, sub_eq_add_neg]

def qfloor (q : ℚ) : ℤ := q.num / (q.den : ℤ)

theorem qfloor_eq (q : ℚ) : qfloor q = ⌊q⌋ := Rat.floor_def.symm

theorem mkRat_eq_q (n : ℤ) (d : ℕ) : mkRat n d = (n : ℚ) / (d : ℚ) := by
  rw [Rat.mkRat_eq_divInt, Rat.divInt_eq_div]
  norm_num

/-! ### Basic numeric helpers -/

/-- value of an optional cell with `NaN` read as 0 (pandas `sum` skipping). -/
def oget (x : Option ℚ) : ℚ := x.getD 0

/-- column-wise forward fill combination: keep the current cell, else carry. -/
def oOr (a b : Option ℚ) : Option ℚ :=
  match a with
  | some v => some v
  | none => b

/-- pandas `Series.sum()`: skip `NaN`, empty sum is 0. -/
def optSum (l : List (Option ℚ)) : ℚ := l.foldl (fun acc x => qadd acc (oget x)) 0

/-- the non-`NaN` entries of a column. -/
def vals (l : List (Option ℚ)) : List ℚ := l.filterMap id

/-- pandas `Series.mean()`: `NaN` when no data. -/
def meanO (l : List (Option ℚ)) : Option ℚ :=
  let v := vals l
  if v.length = 0 then none else some (qdiv (v.foldl qadd 0) (v.length : ℚ))

/-- pandas `Series.min()`: `NaN` when no data. -/
def minO (l : List (Option ℚ)) : Option ℚ :=
  match vals l with
  | [] => none
  | h :: t => some (t.foldl min h)

/-- pandas `Series.max()`: `NaN` when no data. -/
def maxO (l : List (Option ℚ)) : Option ℚ :=
  match vals l with
  | [] => none
  | h :: t => some (t.foldl max h)

/-- python `int(...)` / numpy `astype(int)`: truncation toward zero. -/
def ratTrunc (q : ℚ) : ℤ := Int.tdiv q.num (q.den : ℤ)

/-- numpy rounding of a rational to the nearest integer, ties to even. -/
def halfEvenInt (q : ℚ) : ℤ :=
  let f := qfloor q
  let r := qsub q (f : ℚ)
  if r < mkRat 1 2 then f
  else if mkRat 1 2 < r then f + 1
  else if f % 2 = 0 then f else f + 1

/-- pandas `.round(2)`. -/
def round2 (q : ℚ) : ℚ := qdiv (halfEvenInt (qmul q 100) : ℚ) 100

/-- pandas `.round(0)`. -/
def round0 (q : ℚ) : ℚ := (halfEvenInt q : ℚ)

/-! ### Rows and timestamp-indexed tables

A `Row` carries every column the merged sales history ever holds; a column
that does not exist yet at a given pipeline stage is simply `none` in all
rows of that stage. -/

structure Row where
  fullPrice : Option ℚ
  pctOff : Option ℚ
  absOff : Option ℚ
  snsPct : Option ℚ
  snsAbs : Option ℚ
  ld : Option ℚ
  bsr : Option ℚ
  finalPrice : Option ℚ
  msMin : Option ℚ
  msMax : Option ℚ
  salesMin : Option ℚ
  salesMax : Option ℚ
  coupon : Option ℚ
deriving DecidableEq, Repr

def Row.empty : Row :=
  ⟨none, none, none, none, none, none, none, none, none, none, none, none, none⟩

/-- forward-fill combination of a row over a carried row, column by column. -/
def Row.orElse (a b : Row) : Row :=
  ⟨oOr a.fullPrice b.fullPrice, oOr a.pctOff b.pctOff, oOr a.absOff b.absOff,
   oOr a.snsPct b.snsPct, oOr a.snsAbs b.snsAbs, oOr a.ld b.ld,
   oOr a.bsr b.bsr, oOr a.finalPrice b.finalPrice, oOr a.msMin b.msMin,
   oOr a.msMax b.msMax, oOr a.salesMin b.salesMin, oOr a.salesMax b.salesMax,
   oOr a.coupon b.coupon⟩

/-- a table is a list of (minute timestamp, row), kept sorted by timestamp. -/
abbrev Table := List (ℕ × Row)

/-- row-wise `df[sum_cols].sum(axis=1)` over the twelve data columns present
when the degenerate-row collapse runs (the `coupon` column is added later). -/
def rowSum (r : Row) : ℚ :=
  [r.fullPrice, r.pctOff, r.absOff, r.snsPct, r.snsAbs, r.ld, r.bsr,
   r.finalPrice, r.msMin, r.msMax, r.salesMin, r.salesMax].foldl
    (fun acc x => qadd acc (oget x)) 0

/-- insert a key into a sorted duplicate-free list of keys. -/
def insKey (x : ℕ) : List ℕ → List ℕ
  | [] => [x]
  | y :: ys => if x = y then y :: ys else if x < y then x :: y :: ys else y :: insKey x ys

/-- sorted union of keys, as produced by a pandas outer merge on indexes. -/
def sortUniq (l : List ℕ) : List ℕ := l.foldr insKey []

def lookupRow (t : Table) (k : ℕ) : Option Row :=
  (t.find? (fun p => p.1 == k)).map (fun p => p.2)

/-- pandas `pd.merge(a, b, how="outer", left_index=True, right_index=True)`:
sorted union of keys; the two sides populate disjoint column sets, so the
combined row is the column-wise union. -/
def mergeTables (a b : Table) : Table :=
  (sortUniq ((a.map Prod.fst) ++ (b.map Prod.fst))).map (fun k =>
    (k, Row.orElse ((lookupRow a k).getD Row.empty) ((lookupRow b k).getD Row.empty)))

/-- pandas `.ffill()` with an explicit carried row. -/
def ffillFrom (carry : Row) : Table → Table
  | [] => []
  | (k, r) :: rest =>
      let merged := Row.orElse r carry
      (k, merged) :: ffillFrom merged rest

def ffillTable (t : Table) : Table := ffillFrom Row.empty t

/-- `df.index.max()` over a table of minute keys. -/
def maxKey (t : Table) : ℕ := (t.map Prod.fst).foldl max 0

/-- `pd.date_range(start, end, freq="min")`: every minute from `start` to
`endT` inclusive, empty when `endT < start`. -/
def minuteRange (start endT : ℕ) : List ℕ :=
  if start ≤ endT then List.range' start (endT + 1 - start) else []

/-! ### The raw product record and the object state

`ProductRecord` models `self.data[0]` as fetched from the provider: the
fields `KeepaProduct` reads.  The per-minute series (`df_NEW`,
`df_LIGHTNING_DEAL`, `df_SALES`) come from the provider library already
indexed by datetime (here: minutes); coupon and monthly-sold histories are
flat integer arrays in provider time format. -/

structure ProductRecord where
  title : Option String
  brand : Option String
  parentAsin : Option String
  imagesCSV : Option String
  dfNEW : List (ℕ × Option ℚ)
  couponHistory : Option (List ℤ)
  dfLIGHTNING : Option (List (ℕ × Option ℚ))
  dfSALES : Option (List (ℕ × Option ℚ))
  monthlySoldHistory : Option (List ℤ)
deriving DecidableEq, Repr

/-- the record a failed fetch leaves behind (`self.data = [{}]`). -/
def emptyRecord : ProductRecord := ⟨none, none, none, none, [], none, none, none, none⟩

/-- one row of the monthly summary produced by `generate_monthly_summary`. -/
structure MRow where
  finalPrice : Option ℚ
  fullPrice : Option ℚ
  bsr : Option ℚ
  salesMax : ℚ
  salesMin : ℚ
deriving DecidableEq, Repr

/-- the mutable attributes of a `KeepaProduct` instance that the pipeline
reads or writes (`None` in python is `none` here; `avg_price` starts at 0). -/
structure PState where
  data : Option ProductRecord
  existsFlag : Bool
  title : Option String
  image : Option String
  brand : Option String
  parent : Option String
  lastSalesDate : Option ℕ
  salesHistoryMonthly : Option Table
  shortHistory : Option Table
  pivot : Option Table
  summary : Option (List ((ℕ × ℕ) × MRow))
  lastDays : Option Table
  minSales : Option ℤ
  maxSales : Option ℤ
  avgSales : Option ℚ
  fullPriceAvg : Option ℚ
  avgPrice : Option ℚ
deriving DecidableEq, Repr

/-- a freshly constructed `KeepaProduct` whose record is already in memory. -/
def mkState (rec : ProductRecord) : PState :=
  ⟨some rec, false, none, none, none, none, none, none, none, none, none, none,
   none, none, none, none, some 0⟩

/-- `self.query()`: the upstream fetch is outside the core; when no record is
in memory the failure path `self.data = [{}]` is taken. -/
def query (s : PState) : PState :=
  if s.data = none then { s with data := some emptyRecord } else s

/-! ### Time Decoder (`convert_time`) -/

/-- a python value reaching `convert_time`: an integer timestamp or a
malformed (non-integer) input. -/
inductive PyVal where
  | int (n : ℤ)
  | str (s : String)
  | noneV
deriving DecidableEq, Repr

/-- possible results of the decoder; `raw` exists only so the spec's
pass-the-raw-value-through fallback is statable, the source never builds it. -/
inductive ConvOut where
  | time (msSinceEpoch : ℤ)
  | unknown
  | raw (v : PyVal)
deriving DecidableEq, Repr

/-- `convert_time`: `0` is the provider's "unknown" sentinel; an integer is
decoded to `(keepa_time + 21564000) * 60000` epoch-milliseconds; adding an
integer to a non-integer raises `TypeError` (there is no try/except). -/
def convert_time : PyVal → Except String ConvOut
  | .int n =>
      if n = 0 then .ok .unknown
      else .ok (.time ((n + 21564000) * 60000))
  | .str _ => .error "TypeError"
  | .noneV => .error "TypeError"

/-- the same decode on the pipeline's well-formed integer timestamps,
expressed directly in minutes since the epoch. -/
def convTimeNat (k : ℤ) : ℕ := (k + 21564000).toNat

/-! ### Sales-Tier Mapper (`apply_sales_tiers`) -/

/-- the fixed `sales_tiers` lookup table of `(floor, next-floor)` pairs. -/
def sales_tiers : List (ℚ × ℚ) :=
  [(-1, 0), (0, 50), (50, 100), (100, 200), (200, 300), (300, 400),
   (400, 500), (500, 600), (600, 700), (700, 800), (800, 900), (900, 1000),
   (1000, 2000), (2000, 3000), (3000, 4000), (4000, 5000), (5000, 6000),
   (6000, 7000), (7000, 8000), (8000, 9000), (9000, 10000), (10000, 20000),
   (20000, 30000), (30000, 40000), (40000, 50000), (50000, 60000),
   (60000, 70000), (70000, 80000), (80000, 90000), (90000, 100000),
   (100000, 150000)]

/-- `sales_tiers.get(x, default)` key lookup. -/
def tierLookup (x : ℚ) : Option ℚ :=
  (sales_tiers.find? (fun p => p.1 == x)).map (fun p => p.2)

/-- `apply_sales_tiers`: `-1` means no data; unknown floors fall back to
`x * 1.3`. -/
def apply_sales_tiers (x : ℚ) : ℚ :=
  if x = -1 then 0 else (tierLookup x).getD (qmul x (mkRat 13 10))

/-! ### Event-Stream Normalizer and Timeline Merger (the `pull_*` chain) -/

/-- split a flat provider array into consecutive triples (`[::3]`, `[1::3]`,
`[2::3]` re-zipped); a trailing partial group is dropped. -/
def triples : List ℤ → List (ℤ × ℤ × ℤ)
  | a :: b :: c :: rest => (a, b, c) :: triples rest
  | _ => []

/-- split a flat provider array into consecutive pairs (`[::2]`, `[1::2]`). -/
def pairsOf : List ℤ → List (ℤ × ℤ)
  | a :: b :: rest => (a, b) :: pairsOf rest
  | _ => []

/-- `pull_sales`: extract the new-price history; an absent or empty series
marks the item non-existent. -/
def pull_sales (s : PState) : PState × Option Table :=
  let s := query s
  let rcd := s.data.getD emptyRecord
  let s := { s with
    title := rcd.title
    image :=
      match rcd.imagesCSV with
      | some links =>
          if links ≠ "" then
            some ("https://m.media-amazon.com/images/I/" ++
              ((links.splitOn ",").headD ""))
          else s.image
      | none => s.image
    brand := rcd.brand
    parent := rcd.parentAsin }
  if 0 < rcd.dfNEW.length then
    let tbl : Table := rcd.dfNEW.map (fun p =>
      (p.1, { Row.empty with fullPrice := some (p.2.getD (-1)) }))
    ({ s with existsFlag := true,
              lastSalesDate := (rcd.dfNEW.getLast?).map Prod.fst }, some tbl)
  else (s, none)

/-- one decoded coupon event: negative code = percent off, positive code =
cents off (converted to currency units), separately for the plain and the
subscribe-and-save component. -/
def couponRow (disc sns : ℤ) : Row :=
  { Row.empty with
    pctOff := some (if disc < 0 then (disc : ℚ) else 0)
    absOff := some (if 0 < disc then qdiv (disc : ℚ) 100 else 0)
    snsPct := some (if sns < 0 then (sns : ℚ) else 0)
    snsAbs := some (if 0 < sns then qdiv (sns : ℚ) 100 else 0) }

/-- the synthetic all-zero coupon row used when no coupon history exists. -/
def defaultCouponTbl (lastDate : Option ℕ) : Table :=
  [(lastDate.getD 0,
    { Row.empty with pctOff := some 0, absOff := some 0,
                     snsPct := some 0, snsAbs := some 0 })]

/-- `pull_coupons`: decode the flat coupon triplets and outer-merge them onto
the price history with forward fill. -/
def pull_coupons (s : PState) : PState × Option Table :=
  let ps := pull_sales s
  let s := ps.1
  let salesOpt := ps.2
  if s.existsFlag then
    let sales := salesOpt.getD []
    let rcd := s.data.getD emptyRecord
    let couponTbl : Table :=
      match rcd.couponHistory with
      | some cs =>
          if cs ≠ [] then
            (triples cs).map (fun tr => (convTimeNat tr.1, couponRow tr.2.1 tr.2.2))
          else defaultCouponTbl s.lastSalesDate
      | none => defaultCouponTbl s.lastSalesDate
    (s, some (ffillTable (mergeTables sales couponTbl)))
  else (s, none)

/-- `fillna(0)` over the six columns present after the lightning-deal merge. -/
def fillZero6 (r : Row) : Row :=
  { r with fullPrice := some (oget r.fullPrice), pctOff := some (oget r.pctOff),
           absOff := some (oget r.absOff), snsPct := some (oget r.snsPct),
           snsAbs := some (oget r.snsAbs), ld := some (oget r.ld) }

/-- `pull_lds`: merge the lightning-deal series (synthetic zero row when
absent), forward-fill, then `fillna(0)` across the whole frame. -/
def pull_lds (s : PState) : PState × Option Table :=
  let pc := pull_coupons s
  let s := pc.1
  let shOpt := pc.2
  if s.existsFlag then
    let sh := shOpt.getD []
    let rcd := s.data.getD emptyRecord
    let ldsTbl : Table :=
      match rcd.dfLIGHTNING with
      | some l => l.map (fun p => (p.1, { Row.empty with ld := some (p.2.getD 0) }))
      | none => [(s.lastSalesDate.getD 0, { Row.empty with ld := some 0 })]
    (s, some ((ffillTable (mergeTables sh ldsTbl)).map (fun p => (p.1, fillZero6 p.2))))
  else (s, none)

/-- the coupon-stacked price formula, `NaN` when any operand is `NaN`. -/
def optFinal (r : Row) : Option ℚ :=
  match r.fullPrice, r.absOff, r.snsAbs, r.pctOff, r.snsPct with
  | some f, some a, some sa, some p, some sp =>
      some (qmul (qmul (qsub (qsub f a) sa) (qadd 1 (qdiv p 100)))
        (qadd 1 (qdiv sp 100)))
  | _, _, _, _, _ => none

/-- the final-price computation of `pull_bsr`: the coupon formula, overridden
by the lightning-deal column wherever `LD != 0` (pandas treats a `NaN` LD as
`!= 0`). -/
def computeFinal (r : Row) : Row :=
  { r with finalPrice := if r.ld = some 0 then optFinal r else r.ld }

/-- `pull_bsr`: merge the sales-rank series (`-1` mapped to `NaN`; synthetic
`NaN` row when absent), forward-fill, then derive the final price. -/
def pull_bsr (s : PState) : PState × Option Table :=
  let pl := pull_lds s
  let s := pl.1
  let shOpt := pl.2
  if s.existsFlag then
    let sh := shOpt.getD []
    let rcd := s.data.getD emptyRecord
    let bsrTbl : Table :=
      match rcd.dfSALES with
      | some l => l.map (fun p =>
          (p.1, { Row.empty with bsr := if p.2 = some (-1 : ℚ) then none else p.2 }))
      | none => [(s.lastSalesDate.getD 0, Row.empty)]
    (s, some ((ffillTable (mergeTables sh bsrTbl)).map (fun p => (p.1, computeFinal p.2))))
  else (s, none)

/-- one decoded monthly-sold event after the column map and `replace(-1, 0)`:
`monthlySoldMax` is derived by `apply_sales_tiers` before the replace. -/
def msRow (v : ℚ) : Row :=
  { Row.empty with
    msMin := some (if v = -1 then 0 else v)
    msMax := some (let m := apply_sales_tiers v; if m = -1 then 0 else m) }

/-- `pull_monthly_sold`: decode the flat (time, units) pairs (synthetic `-1`
row when absent) and outer-merge with forward fill. -/
def pull_monthly_sold (s : PState) : PState × Option Table :=
  let pb := pull_bsr s
  let s := pb.1
  let shOpt := pb.2
  if s.existsFlag then
    let sh := shOpt.getD []
    let rcd := s.data.getD emptyRecord
    let msTbl : Table :=
      match rcd.monthlySoldHistory with
      | some ms =>
          if ms ≠ [] then
            (pairsOf ms).map (fun p => (convTimeNat p.1, msRow (p.2 : ℚ)))
          else [(s.lastSalesDate.getD 0, msRow (-1))]
      | none => [(s.lastSalesDate.getD 0, msRow (-1))]
    let shm := ffillTable (mergeTables sh msTbl)
    ({ s with salesHistoryMonthly := some shm }, some shm)
  else (s, none)

/-! ### Densification, degenerate-row collapse, and daily aggregation
(`generate_daily_sales`) -/

/-- `(pd.to_datetime("today") - pd.Timedelta(days=days)).date()` as a day
number (integer division by 1440 truncates to midnight). -/
def windowStartDay (t days : ℕ) : ℕ := (t - days * 1440) / 1440

/-- the same date as a minute timestamp (midnight). -/
def windowStart (t days : ℕ) : ℕ := windowStartDay t days * 1440

/-- the division of the forward-filled monthly-sold columns by
`60 * 24 * 30` producing per-minute estimated unit sales. -/
def withSalesCols (t : Table) : Table :=
  t.map (fun p =>
    (p.1, { p.2 with salesMin := p.2.msMin.map (fun v => qdiv v 43200),
                     salesMax := p.2.msMax.map (fun v => qdiv v 43200) }))

/-- nulling of price data on rows where the full price carries the
"item blocked" sentinel `-1`, then replacing the sentinel itself by `NaN`. -/
def blockAdjust (r : Row) : Row :=
  if r.fullPrice = some (-1 : ℚ) then { r with finalPrice := none, fullPrice := none }
  else r

/-- the dense per-minute history: left-merge of the minute grid with the
event table (events outside the grid are dropped), forward-filled, with
blocked-price rows nulled. -/
def minutelyOf (short : Table) (days t : ℕ) : Table :=
  (ffillTable ((minuteRange (windowStart t days) (maxKey short)).map
    (fun m => (m, (lookupRow short m).getD Row.empty)))).map
    (fun p => (p.1, blockAdjust p.2))

/-- the row-wise column sums of a table (`sum1`). -/
def sumsOf (t : Table) : List ℚ := t.map (fun p => rowSum p.2)

/-- `sum3`: the predecessor row's sum (an all-`NaN` shifted row sums to 0). -/
def prevSum (s : List ℚ) (i : ℕ) : ℚ := if i = 0 then 0 else s.getD (i - 1) 0

/-- the `diff` column `(sum1 - sum2) + (sum1 - sum3)` of the degenerate-row
collapse. -/
def diffAt (s : List ℚ) (i : ℕ) : ℚ :=
  qadd (qsub (s.getD i 0) (s.getD (i + 1) 0)) (qsub (s.getD i 0) (prevSum s i))

/-- the degenerate-row collapse: keep exactly the rows whose `diff` is
non-zero. -/
def dedupTable (t : Table) : Table :=
  ((t.enum).filter (fun p => decide (diffAt (sumsOf t) p.1 ≠ 0))).map Prod.snd

/-- the post-collapse clean-up of the retained short history: `LD` zeros to
`NaN` and the extra `coupon` column (nulled where it equals the full price). -/
def postShort (r : Row) : Row :=
  let r := { r with ld := if r.ld = some (0 : ℚ) then none else r.ld }
  let r := { r with fullPrice := if r.fullPrice = some (-1 : ℚ) then none else r.fullPrice }
  let c := optFinal r
  { r with coupon := if c = r.fullPrice then none else c }

/-- calendar day of a minute timestamp. -/
def dayOf (m : ℕ) : ℕ := m / 1440

/-- the rows of a table falling on one calendar day. -/
def dayRows (t : Table) (d : ℕ) : List Row :=
  (t.filter (fun p => dayOf p.1 == d)).map (fun p => p.2)

/-- the daily `pivot_table` aggregation functions: mean prices, most generous
discounts, max lightning deal, summed estimated sales, best (min) rank. -/
def aggDaily (g : List Row) : Row :=
  { fullPrice := meanO (g.map (fun r => r.fullPrice))
    pctOff := minO (g.map (fun r => r.pctOff))
    absOff := minO (g.map (fun r => r.absOff))
    snsPct := minO (g.map (fun r => r.snsPct))
    snsAbs := minO (g.map (fun r => r.snsAbs))
    ld := maxO (g.map (fun r => r.ld))
    bsr := minO (g.map (fun r => r.bsr))
    finalPrice := meanO (g.map (fun r => r.finalPrice))
    msMin := none
    msMax := none
    salesMin := some (optSum (g.map (fun r => r.salesMin)))
    salesMax := some (optSum (g.map (fun r => r.salesMax)))
    coupon := none }

/-- the daily pivot: group the dense minute table by calendar day. -/
def pivotDaily (t : Table) : Table :=
  (sortUniq (t.map (fun p => dayOf p.1))).map
    (fun d => (d, aggDaily (dayRows t d)))

/-- `_format_numbers`: currency columns to 2 decimals, sales counts to int. -/
def formatNums (r : Row) : Row :=
  { r with fullPrice := r.fullPrice.map round2
           finalPrice := r.finalPrice.map round2
           ld := r.ld.map round2
           salesMin := r.salesMin.map (fun q => ((ratTrunc q : ℤ) : ℚ))
           salesMax := r.salesMax.map (fun q => ((ratTrunc q : ℤ) : ℚ)) }

/-- `self.pivot.replace(0, np.nan)` applied to every column. -/
def replaceZero (r : Row) : Row :=
  ⟨if r.fullPrice = some 0 then none else r.fullPrice,
   if r.pctOff = some 0 then none else r.pctOff,
   if r.absOff = some 0 then none else r.absOff,
   if r.snsPct = some 0 then none else r.snsPct,
   if r.snsAbs = some 0 then none else r.snsAbs,
   if r.ld = some 0 then none else r.ld,
   if r.bsr = some 0 then none else r.bsr,
   if r.finalPrice = some 0 then none else r.finalPrice,
   if r.msMin = some 0 then none else r.msMin,
   if r.msMax = some 0 then none else r.msMax,
   if r.salesMin = some 0 then none else r.salesMin,
   if r.salesMax = some 0 then none else r.salesMax,
   if r.coupon = some 0 then none else r.coupon⟩

/-- `generate_daily_sales(days)`: densify to a per-minute grid from the
window-start date to the latest event, collapse degenerate rows into the
retained short history, and aggregate the dense grid into the daily pivot.
The current time `t` (pandas "today") is an explicit parameter. -/
def generate_daily_sales (s : PState) (days t : ℕ) : PState :=
  let pm := pull_monthly_sold s
  let shOpt := pm.2
  let s := { pm.1 with shortHistory := shOpt }
  if s.existsFlag then
    let short := withSalesCols (shOpt.getD [])
    let minutely := minutelyOf short days t
    let trimmed := (dedupTable minutely).map (fun p => (p.1, postShort p.2))
    let piv := (pivotDaily minutely).map (fun p => (p.1, replaceZero (formatNums p.2)))
    { s with shortHistory := some trimmed, pivot := some piv }
  else s

/-! ### Window Summarizer (`get_last_days`) -/

/-- `get_last_days(days)`: restrict the daily pivot to the trailing window
and compute the headline totals. -/
def get_last_days (s : PState) (days t : ℕ) : PState :=
  let s := generate_daily_sales s days t
  if s.existsFlag then
    let piv := s.pivot.getD []
    let ld := piv.filter (fun p => decide (windowStartDay t days ≤ p.1))
    let m1 := ratTrunc (optSum (ld.map (fun p => p.2.salesMin)))
    let m2 := ratTrunc (optSum (ld.map (fun p => p.2.salesMax)))
    { s with lastDays := some ld
             minSales := some m1
             maxSales := some m2
             avgSales := some (qdiv (qadd (m1 : ℚ) (m2 : ℚ)) 2)
             fullPriceAvg := meanO (ld.map (fun p => p.2.fullPrice))
             avgPrice := meanO (ld.map (fun p => p.2.finalPrice)) }
  else s

/-! ### Monthly aggregation (`generate_monthly_summary`, from
`src/sales_estimator_tab.py`) -/

/-- civil calendar date (year, month, day-of-month) of a day count since
1970-01-01, by the standard Gregorian days-to-civil algorithm (models the
pandas `DatetimeIndex.year` / `.month` accessors). -/
def civilFromDays (z : ℕ) : ℕ × ℕ × ℕ :=
  let z := z + 719468
  let era := z / 146097
  let doe := z % 146097
  let yoe := (doe - doe / 1460 + doe / 36524 - doe / 146097) / 365
  let y := yoe + era * 400
  let doy := doe - (365 * yoe + yoe / 4 - yoe / 100)
  let mp := (5 * doy + 2) / 153
  let d := doy - (153 * mp + 2) / 5 + 1
  let m := if mp < 10 then mp + 3 else mp - 9
  (if m ≤ 2 then y + 1 else y, m, d)

/-- the "year-month" grouping key of a day number. -/
def ymOf (d : ℕ) : ℕ × ℕ :=
  let c := civilFromDays d
  (c.1, c.2.1)

/-- day number of 2020-01-01, the cut-off date of the monthly summary. -/
def cutoff2020 : ℕ := 18262

/-- the `summary.index >= 2020-01-01` restriction of the daily pivot. -/
def monthFilter (piv : Table) : Table := piv.filter (fun p => decide (cutoff2020 ≤ p.1))

/-- chronological order on year-month keys. -/
def ymLe (a b : ℕ × ℕ) : Bool := decide (a.1 < b.1 ∨ (a.1 = b.1 ∧ a.2 ≤ b.2))

/-- insert into a sorted duplicate-free list of year-month keys. -/
def insYm (x : ℕ × ℕ) : List (ℕ × ℕ) → List (ℕ × ℕ)
  | [] => [x]
  | y :: ys => if x = y then y :: ys else if ymLe x y then x :: y :: ys else y :: insYm x ys

def sortUniqYm (l : List (ℕ × ℕ)) : List (ℕ × ℕ) := l.foldr insYm []

/-- the daily rows of the restricted pivot falling in one year-month. -/
def monthGroup (piv : Table) (ym : ℕ × ℕ) : List Row :=
  ((monthFilter piv).filter (fun p => ymOf p.1 == ym)).map (fun p => p.2)

/-- the monthly `pivot_table` aggregation plus the final rounding: mean
prices to 2 decimals, summed sales and mean rank to 0 decimals. -/
def aggMonthly (g : List Row) : MRow :=
  { finalPrice := (meanO (g.map (fun r => r.finalPrice))).map round2
    fullPrice := (meanO (g.map (fun r => r.fullPrice))).map round2
    bsr := (meanO (g.map (fun r => r.bsr))).map round0
    salesMax := round0 (optSum (g.map (fun r => r.salesMax)))
    salesMin := round0 (optSum (g.map (fun r => r.salesMin))) }

/-- the monthly summary as a function of the daily pivot. -/
def monthlySummaryOf (piv : Table) : List ((ℕ × ℕ) × MRow) :=
  (sortUniqYm ((monthFilter piv).map (fun p => ymOf p.1))).map
    (fun ym => (ym, aggMonthly (monthGroup piv ym)))

/-- `generate_monthly_summary`: run the daily pipeline first when no record
is loaded; build the summary only when a daily pivot exists. -/
def generate_monthly_summary (s : PState) (t : ℕ) : PState :=
  let s := if s.data = none then generate_daily_sales s 360 t else s
  match s.data, s.pivot with
  | some _, some piv => { s with summary := some (monthlySummaryOf piv) }
  | _, _ => s

/-- one full reconstruction pass: window summary plus monthly summary. -/
def reconstruct (s : PState) (days t : ℕ) : PState :=
  generate_monthly_summary (get_last_days s days t) t

/-! ### Detailed Daily Sales History export (`get_sales_history_by_date`) -/

/-- one row of the date-by-date sales table. -/
structure SalesRow where
  date : ℕ
  minSales : ℤ
  maxSales : ℚ
  avgSales : ℤ
deriving DecidableEq, Repr

/-- `get_sales_history_by_date`: decode the monthly-sold pairs, drop the
`-1` no-data rows, derive the tier ceiling and the 90/10-weighted average
(truncated to an integer). -/
def get_sales_history_by_date (s : PState) : List SalesRow :=
  let s := query s
  if s.existsFlag then
    let rcd := s.data.getD emptyRecord
    match rcd.monthlySoldHistory with
    | none => []
    | some ms =>
        if ms = [] then []
        else
          ((pairsOf ms).filter (fun p => decide (p.2 ≠ -1))).map (fun p =>
            let mx := apply_sales_tiers (p.2 : ℚ)
            { date := convTimeNat p.1
              minSales := p.2
              maxSales := mx
              avgSales := ratTrunc (qadd (qmul (p.2 : ℚ) (mkRat 9 10))
                (qmul mx (mkRat 1 10))) })
  else []

/-! ## Claim theorems -/

/-- C3: for every input `x`: a key of the `sales_tiers` table maps to the
table's value; a non-key maps to `x * 1.3`; and `-1` maps to `0`. -/
theorem claim3_tiers :
    (∀ x v : ℚ, tierLookup x = some v → apply_sales_tiers x = v) ∧
    (∀ x : ℚ, tierLookup x = none → apply_sales_tiers x = x * (13/10)) ∧
    apply_sales_tiers (-1) = 0 := by
  refine ⟨fun x v h => ?_, fun x h => ?_, by decide⟩
  · by_cases hx : x = -1
    · subst hx
      have h0 : tierLookup (-1 : ℚ) = some 0 := by decide
      rw [h0] at h
      cases h
      decide
    · simp [apply_sales_tiers, hx, h]
  · have hx : x ≠ -1 := by
      intro e
      subst e
      have h0 : tierLookup (-1 : ℚ) = some 0 := by decide
      rw [h0] at h
      cases h
    simp only [apply_sales_tiers, hx, if_false, h, Option.getD_none, qmul_eq, mkRat_eq_q]
    norm_num

/-- witness for C3: the theorem applied at the key `50`, the non-key `57`,
and the sentinel `-1`. -/
theorem claim3_tiers_witness :
    (tierLookup (50 : ℚ) = some 100 ∧ apply_sales_tiers 50 = 100) ∧
    (tierLookup (57 : ℚ) = none ∧ apply_sales_tiers 57 = 57 * (13/10)) ∧
    apply_sales_tiers (-1) = 0 :=
  ⟨⟨by decide, claim3_tiers.1 50 100 (by decide)⟩,
   ⟨by decide, claim3_tiers.2.1 57 (by decide)⟩,
   claim3_tiers.2.2⟩

/-- C5 counterexample: on a non-integer input `convert_time` raises a
`TypeError` (there is no try/except in any copy of the function), so it does
not return the raw value unchanged. -/
theorem claim5_counterexample :
    convert_time (PyVal.str "not-an-int") = Except.error "TypeError" ∧
    convert_time (PyVal.str "not-an-int") ≠
      Except.ok (ConvOut.raw (PyVal.str "not-an-int")) := by
  refine ⟨rfl, ?_⟩
  simp [convert_time]

/-- C5 amended: the zero sentinel decodes to "unknown"; any other integer
decodes by the epoch-offset formula; any non-integer input raises a
`TypeError` that propagates to the caller. -/
theorem claim5_amended :
    convert_time (PyVal.int 0) = Except.ok ConvOut.unknown ∧
    (∀ n : ℤ, n ≠ 0 →
      convert_time (PyVal.int n) = Except.ok (ConvOut.time ((n + 21564000) * 60000))) ∧
    (∀ v : PyVal, (∀ n : ℤ, v ≠ PyVal.int n) →
      convert_time v = Except.error "TypeError") := by
  refine ⟨rfl, fun n hn => by simp [convert_time, hn], fun v hv => ?_⟩
  cases v with
  | int n => exact absurd rfl (hv n)
  | str s => rfl
  | noneV => rfl

/-- witness for C5: the amended theorem applied at the integer `5` and at the
non-integer `None`. -/
theorem claim5_amended_witness :
    ((5 : ℤ) ≠ 0 ∧
      convert_time (PyVal.int 5) = Except.ok (ConvOut.time ((5 + 21564000) * 60000))) ∧
    ((∀ n : ℤ, PyVal.noneV ≠ PyVal.int n) ∧
      convert_time PyVal.noneV = Except.error "TypeError") :=
  ⟨⟨by decide, claim5_amended.2.1 5 (by decide)⟩,
   ⟨fun n => by simp, claim5_amended.2.2 PyVal.noneV (fun n => by simp)⟩⟩

/-- C10: every row of the date-by-date export has a min-sales value other
than the `-1` sentinel, its max is the tier ceiling of its min, and its
average is the truncated 90/10 weighting of min and max. -/
theorem claim10_history (s : PState) (row : SalesRow)
    (h : row ∈ get_sales_history_by_date s) :
    row.minSales ≠ -1 ∧
    row.maxSales = apply_sales_tiers ((row.minSales : ℤ) : ℚ) ∧
    row.avgSales = ratTrunc (((row.minSales : ℤ) : ℚ) * (9/10) + row.maxSales * (1/10)) := by
  simp only [get_sales_history_by_date] at h
  split at h
  · split at h
    · simp at h
    · split at h
      · simp at h
      · obtain ⟨p, hp, rfl⟩ := List.mem_map.1 h
        have hne : p.2 ≠ -1 := of_decide_eq_true (List.mem_filter.1 hp).2
        refine ⟨hne, rfl, ?_⟩
        simp only [qadd_eq, qmul_eq, mkRat_eq_q]
        norm_num
  · simp at h

def c10rec : ProductRecord :=
  { emptyRecord with monthlySoldHistory := some [1, 500, 2, -1, 3, 800] }

def c10state : PState := { mkState c10rec with existsFlag := true }

/-- witness for C10: the export of a record whose monthly-sold array holds a
`-1` row; the surviving row `(500, 600)` carries average `510`. -/
theorem claim10_history_witness :
    (⟨21564001, 500, 600, 510⟩ : SalesRow) ∈ get_sales_history_by_date c10state ∧
    ((500 : ℤ) ≠ -1 ∧
     (600 : ℚ) = apply_sales_tiers (((500 : ℤ) : ℤ) : ℚ) ∧
     (510 : ℤ) = ratTrunc ((((500 : ℤ) : ℤ) : ℚ) * (9/10) + (600 : ℚ) * (1/10))) :=
  ⟨by decide, claim10_history c10state ⟨21564001, 500, 600, 510⟩
    (by decide)⟩

/-- a one-column row used in concrete degenerate-row-collapse tables. -/
def rowQ (v : ℚ) : Row := { Row.empty with fullPrice := some v }

/-- C6 counterexample: in the table with row sums `6, 5, 4` the middle row's
sum differs from both of its neighbors, yet the collapse removes it, because
the two neighbor differences `+1` and `-1` cancel in the `diff` column. -/
theorem claim6_counterexample :
    dedupTable [(0, rowQ 6), (1, rowQ 5), (2, rowQ 4)] = [(0, rowQ 6), (2, rowQ 4)] ∧
    rowSum (rowQ 5) ≠ rowSum (rowQ 4) ∧
    rowSum (rowQ 5) ≠ rowSum (rowQ 6) := by
  refine ⟨?_, by decide, by decide⟩
  decide

/-- C6 amended: a row is removed by the collapse exactly when twice its
column-sum equals the sum of its two neighbors' column-sums (a missing
neighbor summing to 0); in particular a row whose sum equals both neighbors'
sums is always removed, but cancelling neighbor differences also remove it. -/
theorem claim6_amended (t : Table) (i : ℕ) (_hi : i < t.length) :
    (diffAt (sumsOf t) i = 0 ↔
      2 * (sumsOf t).getD i 0 = (sumsOf t).getD (i + 1) 0 + prevSum (sumsOf t) i) ∧
    ((sumsOf t).getD i 0 = (sumsOf t).getD (i + 1) 0 ∧
      (sumsOf t).getD i 0 = prevSum (sumsOf t) i → diffAt (sumsOf t) i = 0) := by
  constructor
  · unfold diffAt
    rw [qadd_eq, qsub_eq, qsub_eq]
    constructor <;> intro h <;> linarith
  · rintro ⟨h1, h2⟩
    unfold diffAt
    rw [qadd_eq, qsub_eq, qsub_eq, ← h1, ← h2]
    ring

/-- witness for C6: the amended characterization applied to the first row of
a concrete two-row table. -/
theorem claim6_amended_witness :
    (0 : ℕ) < ([(0, rowQ 6), (1, rowQ 5)] : Table).length ∧
    ((diffAt (sumsOf [(0, rowQ 6), (1, rowQ 5)]) 0 = 0 ↔
      2 * (sumsOf [(0, rowQ 6), (1, rowQ 5)]).getD 0 0 =
        (sumsOf [(0, rowQ 6), (1, rowQ 5)]).getD 1 0 +
        prevSum (sumsOf [(0, rowQ 6), (1, rowQ 5)]) 0) ∧
    ((sumsOf [(0, rowQ 6), (1, rowQ 5)]).getD 0 0 =
        (sumsOf [(0, rowQ 6), (1, rowQ 5)]).getD 1 0 ∧
      (sumsOf [(0, rowQ 6), (1, rowQ 5)]).getD 0 0 =
        prevSum (sumsOf [(0, rowQ 6), (1, rowQ 5)]) 0 →
      diffAt (sumsOf [(0, rowQ 6), (1, rowQ 5)]) 0 = 0)) :=
  ⟨by decide, claim6_amended [(0, rowQ 6), (1, rowQ 5)] 0 (by decide)⟩

/-- membership characterization of the sorted-unique insertion, C4 helper. -/
theorem mem_insYm {x y : ℕ × ℕ} {l : List (ℕ × ℕ)} (h : x ∈ insYm y l) :
    x = y ∨ x ∈ l := by
  induction l with
  | nil =>
      simp only [insYm, List.mem_singleton] at h
      exact Or.inl h
  | cons z zs ih =>
      simp only [insYm] at h
      split at h
      · exact Or.inr h
      · split at h
        · rcases List.mem_cons.1 h with h1 | h1
          · exact Or.inl h1
          · exact Or.inr h1
        · rcases List.mem_cons.1 h with h1 | h1
          · exact Or.inr (List.mem_cons.2 (Or.inl h1))
          · rcases ih h1 with h2 | h2
            · exact Or.inl h2
            · exact Or.inr (List.mem_cons.2 (Or.inr h2))

/-- every key of the sorted-unique list comes from the input list. -/
theorem mem_sortUniqYm {x : ℕ × ℕ} {l : List (ℕ × ℕ)} (h : x ∈ sortUniqYm l) :
    x ∈ l := by
  induction l with
  | nil => simp [sortUniqYm] at h
  | cons a as ih =>
      have h' : x ∈ insYm a (sortUniqYm as) := h
      rcases mem_insYm h' with h1 | h1
      · exact h1 ▸ List.mem_cons_self a as
      · exact List.mem_cons.2 (Or.inr (ih h1))

/-- a daily-pivot row with best rank `b` on a day with price 5 and unit
sales 1 to 2, for the concrete C4 tables. -/
def dRow (b : ℚ) : Row :=
  { Row.empty with bsr := some b, fullPrice := some 5, finalPrice := some 5,
                   salesMin := some 1, salesMax := some 2 }

/-- a two-day daily pivot inside 2020-01 whose best ranks are 10 and 30. -/
def pivC4 : Table := [(18262, dRow 10), (18263, dRow 30)]

/-- C4 counterexample: on `pivC4` the monthly summary reports the sales-rank
mean `20`, not the month's minimum `10`. -/
theorem claim4_counterexample :
    ((monthlySummaryOf pivC4).map (fun p => (p.1, p.2.bsr)) = [((2020, 1), some 20)]) ∧
    minO ((monthGroup pivC4 (2020, 1)).map (fun r => r.bsr)) = some 10 ∧
    some (20 : ℚ) ≠ some (10 : ℚ) := by
  refine ⟨by decide, by decide, by decide⟩

/-- C4 amended: the monthly summary is restricted to calendar days on/after
2020-01-01 (every output month comes from such a day), and it aggregates the
sales-rank column by the rounded mean of the month's daily values, not their
minimum. -/
theorem claim4_amended (piv : Table) (ym : ℕ × ℕ) (mr : MRow)
    (h : (ym, mr) ∈ monthlySummaryOf piv) :
    (∃ p ∈ piv, cutoff2020 ≤ p.1 ∧ ymOf p.1 = ym) ∧
    mr.bsr = (meanO ((monthGroup piv ym).map (fun r => r.bsr))).map round0 := by
  unfold monthlySummaryOf at h
  obtain ⟨ym2, hym2, heq⟩ := List.mem_map.1 h
  rw [Prod.mk.injEq] at heq
  obtain ⟨rfl, rfl⟩ := heq
  constructor
  · have hin : ym2 ∈ (monthFilter piv).map (fun p => ymOf p.1) := mem_sortUniqYm hym2
    obtain ⟨p, hp, he⟩ := List.mem_map.1 hin
    have hmf := List.mem_filter.1 hp
    exact ⟨p, hmf.1, of_decide_eq_true hmf.2, he⟩
  · rfl

/-- witness for C4: the amended theorem applied to the concrete pivot. -/
theorem claim4_amended_witness :
    (((2020, 1), aggMonthly (monthGroup pivC4 (2020, 1))) ∈ monthlySummaryOf pivC4) ∧
    ((∃ p ∈ pivC4, cutoff2020 ≤ p.1 ∧ ymOf p.1 = (2020, 1)) ∧
      (aggMonthly (monthGroup pivC4 (2020, 1))).bsr =
        (meanO ((monthGroup pivC4 (2020, 1)).map (fun r => r.bsr))).map round0) :=
  ⟨by decide, claim4_amended pivC4 (2020, 1) _ (by decide)⟩

/-! ### Row invariants preserved by merging and forward fill -/

/-- the rows of a looked-up-or-empty cell satisfy any predicate holding for
the table's rows and for the empty row. -/
theorem getD_lookupRow {P : Row → Prop} {t : Table} (h : ∀ p ∈ t, P p.2)
    (hE : P Row.empty) (k : ℕ) : P ((lookupRow t k).getD Row.empty) := by
  unfold lookupRow
  cases hf : t.find? (fun p => p.1 == k) with
  | none => simpa using hE
  | some q =>
      have hq : q ∈ t := List.mem_of_find?_eq_some hf
      simpa using h q hq

/-- an outer merge preserves any row predicate stable under the column-wise
union and true of the empty row. -/
theorem mergeTables_pres {P : Row → Prop}
    (hor : ∀ a b, P a → P b → P (Row.orElse a b)) (hE : P Row.empty)
    {a b : Table} (ha : ∀ p ∈ a, P p.2) (hb : ∀ p ∈ b, P p.2) :
    ∀ p ∈ mergeTables a b, P p.2 := by
  intro p hp
  unfold mergeTables at hp
  obtain ⟨k, _, rfl⟩ := List.mem_map.1 hp
  exact hor _ _ (getD_lookupRow ha hE k) (getD_lookupRow hb hE k)

/-- forward fill preserves any row predicate stable under the column-wise
union, given it holds of the carried row. -/
theorem ffillFrom_pres {P : Row → Prop}
    (hor : ∀ a b, P a → P b → P (Row.orElse a b)) :
    ∀ {t : Table} {carry : Row}, P carry → (∀ p ∈ t, P p.2) →
      ∀ p ∈ ffillFrom carry t, P p.2 := by
  intro t
  induction t with
  | nil => intro carry _ _ p hp; simp [ffillFrom] at hp
  | cons q rest ih =>
      intro carry hc hrows p hp
      obtain ⟨k0, r0⟩ := q
      simp only [ffillFrom, List.mem_cons] at hp
      have hmerged : P (Row.orElse r0 carry) :=
        hor _ _ (hrows (k0, r0) (List.mem_cons_self _ _)) hc
      rcases hp with hp | hp
      · rw [hp]
        exact hmerged
      · exact ih hmerged (fun p h2 => hrows p (List.mem_cons.2 (Or.inr h2))) p hp

theorem ffillTable_pres {P : Row → Prop}
    (hor : ∀ a b, P a → P b → P (Row.orElse a b)) (hE : P Row.empty)
    {t : Table} (hrows : ∀ p ∈ t, P p.2) : ∀ p ∈ ffillTable t, P p.2 :=
  ffillFrom_pres hor hE hrows

/-! ### C2: the final-price resolution -/

/-- the six price/discount columns are all populated. -/
def all6 (r : Row) : Prop :=
  r.fullPrice ≠ none ∧ r.pctOff ≠ none ∧ r.absOff ≠ none ∧
  r.snsPct ≠ none ∧ r.snsAbs ≠ none ∧ r.ld ≠ none

/-- the six price/discount columns are all `NaN`. -/
def none6 (r : Row) : Prop :=
  r.fullPrice = none ∧ r.pctOff = none ∧ r.absOff = none ∧
  r.snsPct = none ∧ r.snsAbs = none ∧ r.ld = none

/-- every row after the lightning-deal stage is either fully populated or
fully `NaN` in the six price columns. -/
def p6 (r : Row) : Prop := all6 r ∨ none6 r

theorem p6_empty : p6 Row.empty := Or.inr ⟨rfl, rfl, rfl, rfl, rfl, rfl⟩

theorem oOr_eq_left {a b : Option ℚ} (h : a ≠ none) : oOr a b = a := by
  cases a with
  | none => exact absurd rfl h
  | some v => rfl

theorem p6_orElse (a b : Row) (ha : p6 a) (hb : p6 b) : p6 (Row.orElse a b) := by
  rcases ha with ha | ha
  · left
    obtain ⟨h1, h2, h3, h4, h5, h6⟩ := ha
    exact ⟨by simp only [Row.orElse, oOr_eq_left h1]; exact h1,
           by simp only [Row.orElse, oOr_eq_left h2]; exact h2,
           by simp only [Row.orElse, oOr_eq_left h3]; exact h3,
           by simp only [Row.orElse, oOr_eq_left h4]; exact h4,
           by simp only [Row.orElse, oOr_eq_left h5]; exact h5,
           by simp only [Row.orElse, oOr_eq_left h6]; exact h6⟩
  · obtain ⟨h1, h2, h3, h4, h5, h6⟩ := ha
    have e : ∀ x : Option ℚ, oOr none x = x := fun _ => rfl
    rcases hb with hb | hb
    · left
      obtain ⟨g1, g2, g3, g4, g5, g6⟩ := hb
      exact ⟨by simp only [Row.orElse, h1, e]; exact g1,
             by simp only [Row.orElse, h2, e]; exact g2,
             by simp only [Row.orElse, h3, e]; exact g3,
             by simp only [Row.orElse, h4, e]; exact g4,
             by simp only [Row.orElse, h5, e]; exact g5,
             by simp only [Row.orElse, h6, e]; exact g6⟩
    · right
      obtain ⟨g1, g2, g3, g4, g5, g6⟩ := hb
      exact ⟨by simp only [Row.orElse, h1, e]; exact g1,
             by simp only [Row.orElse, h2, e]; exact g2,
             by simp only [Row.orElse, h3, e]; exact g3,
             by simp only [Row.orElse, h4, e]; exact g4,
             by simp only [Row.orElse, h5, e]; exact g5,
             by simp only [Row.orElse, h6, e]; exact g6⟩

theorem all6_fillZero6 (r : Row) : all6 (fillZero6 r) := by
  refine ⟨?_, ?_, ?_, ?_, ?_, ?_⟩ <;> simp [fillZero6]

/-- the lightning-deal stage output has all six price columns populated. -/
theorem pull_lds_all6 (s : PState) :
    ∀ p ∈ ((pull_lds s).2.getD []), all6 p.2 := by
  intro p hp
  simp only [pull_lds] at hp
  split at hp
  · simp only [Option.getD_some] at hp
    obtain ⟨q, _, rfl⟩ := List.mem_map.1 hp
    exact all6_fillZero6 q.2
  · simp at hp

/-- the sales-rank patch rows populate none of the six price columns. -/
theorem none6_bsrPatch (x : Option ℚ) : none6 { Row.empty with bsr := x } :=
  ⟨rfl, rfl, rfl, rfl, rfl, rfl⟩

/-- every row of the sales-rank-stage merge satisfies the dichotomy. -/
theorem pull_bsr_p6 (s : PState) {tbl : Table}
    (h : (pull_bsr s).2 = some tbl) :
    ∀ p ∈ tbl, ∃ r0 : Row, p.2 = computeFinal r0 ∧ p6 r0 := by
  intro p hp
  simp only [pull_bsr] at h
  split at h
  · rw [Option.some.injEq] at h
    subst h
    obtain ⟨q, hq, rfl⟩ := List.mem_map.1 hp
    refine ⟨q.2, rfl, ?_⟩
    refine ffillTable_pres p6_orElse p6_empty ?_ q hq
    refine mergeTables_pres p6_orElse p6_empty ?_ ?_
    · exact fun p2 h2 => Or.inl (pull_lds_all6 s p2 h2)
    · intro p2 h2
      split at h2
      · obtain ⟨q2, _, rfl⟩ := List.mem_map.1 h2
        exact Or.inr (none6_bsrPatch _)
      · rcases List.mem_singleton.1 h2 with rfl
        exact Or.inr (none6_bsrPatch none)
  · cases h

/-- C2: in the merged sales history after the sales-rank stage, whenever the
lightning-deal column is a non-zero value the final price equals it; where
the column is zero the final price is the coupon-stacked formula
`(full − absolute − sns-absolute) · (1 + pct/100) · (1 + sns-pct/100)`; and
a row whose lightning-deal cell is `NaN` (only possible when every price
column is `NaN`) carries a `NaN` final price. -/
theorem claim2_final_price (rcd : ProductRecord) (k : ℕ) (r : Row)
    (h : (k, r) ∈ (pull_bsr (mkState rcd)).2.getD []) :
    (∀ v : ℚ, r.ld = some v → v ≠ 0 → r.finalPrice = some v) ∧
    (r.ld = some 0 → ∀ f a sa p sp : ℚ,
      r.fullPrice = some f → r.absOff = some a → r.snsAbs = some sa →
      r.pctOff = some p → r.snsPct = some sp →
      r.finalPrice = some ((f - a - sa) * (1 + p / 100) * (1 + sp / 100))) ∧
    (r.ld = none → r.finalPrice = none) := by
  cases hpb : (pull_bsr (mkState rcd)).2 with
  | none => rw [hpb] at h; simp at h
  | some tbl =>
      rw [hpb] at h
      simp only [Option.getD_some] at h
      obtain ⟨r0, hr0, hp6⟩ := pull_bsr_p6 (mkState rcd) hpb (k, r) h
      simp only at hr0
      subst hr0
      refine ⟨?_, ?_, ?_⟩
      · intro v hv hvne
        have : r0.ld = some v := hv
        simp only [computeFinal, this, Option.some.injEq]
        rw [if_neg (by simpa using hvne)]
      · intro h0 f a sa p sp hf ha hsa hp hsp
        have e0 : r0.ld = some 0 := h0
        have ef : r0.fullPrice = some f := hf
        have ea : r0.absOff = some a := ha
        have esa : r0.snsAbs = some sa := hsa
        have ep : r0.pctOff = some p := hp
        have esp : r0.snsPct = some sp := hsp
        simp only [computeFinal, e0, if_pos rfl, optFinal, ef, ea, esa, ep, esp]
        rw [qmul_eq, qmul_eq, qsub_eq, qsub_eq, qadd_eq, qadd_eq, qdiv_eq, qdiv_eq]
        simp
      · intro hnone
        have e0 : r0.ld = none := hnone
        rcases hp6 with h6 | h6
        · exact absurd e0 h6.2.2.2.2.2
        · simp only [computeFinal, e0]
          rw [if_neg (by simp)]

/-- a record with one price event, one coupon event, and one lightning deal,
used to witness the final-price resolution. -/
def recC2 : ProductRecord :=
  { emptyRecord with dfNEW := [(21564000, some 100)],
                     couponHistory := some [5, -10, 0],
                     dfLIGHTNING := some [(21564005, some 42)] }

/-- the merged row of `recC2` at the lightning-deal minute. -/
def rowC2 : Row :=
  ⟨some 100, some (-10), some 0, some 0, some 0, some 42, none, some 42,
   none, none, none, none, none⟩

/-- witness for C2: the theorem applied at the lightning-deal row of `recC2`,
whose final price is the deal price 42 despite a live -10 percent coupon. -/
theorem claim2_final_price_witness :
    (21564005, rowC2) ∈ (pull_bsr (mkState recC2)).2.getD [] ∧
    rowC2.ld = some 42 ∧ (42 : ℚ) ≠ 0 ∧ rowC2.finalPrice = some 42 :=
  ⟨by decide, rfl, by decide,
   (claim2_final_price recC2 21564005 rowC2 (by decide)).1 42 rfl (by decide)⟩

/-! ### C7: the dense per-minute grid -/

/-- the merged event table entering the densification, per record. -/
def shortTableOf (rcd : ProductRecord) : Table :=
  (pull_monthly_sold (mkState rcd)).2.getD []

/-- the dense per-minute timeline of one record, as built inside
`generate_daily_sales`. -/
def minutelyTable (rcd : ProductRecord) (days t : ℕ) : Table :=
  minutelyOf (withSalesCols (shortTableOf rcd)) days t

theorem map_fst_ffillFrom (carry : Row) (t : Table) :
    (ffillFrom carry t).map Prod.fst = t.map Prod.fst := by
  induction t generalizing carry with
  | nil => rfl
  | cons q rest ih =>
      obtain ⟨k, r⟩ := q
      simp only [ffillFrom, List.map_cons, ih]

/-- the keys of the dense timeline are exactly the minute grid. -/
theorem minutelyOf_keys (short : Table) (days t : ℕ) :
    (minutelyOf short days t).map Prod.fst =
      minuteRange (windowStart t days) (maxKey short) := by
  unfold minutelyOf ffillTable
  rw [List.map_map]
  have h1 : (Prod.fst ∘ fun p : ℕ × Row => (p.1, blockAdjust p.2)) = Prod.fst := rfl
  rw [h1, map_fst_ffillFrom, List.map_map]
  have h2 : (Prod.fst ∘ fun m : ℕ => (m, (lookupRow short m).getD Row.empty)) = id := rfl
  rw [h2, List.map_id]

theorem chain_succ_range' : ∀ (n s : ℕ),
    List.Chain' (fun a b => b = a + 1) (List.range' s n)
  | 0, _ => List.chain'_nil
  | 1, _ => List.chain'_singleton _
  | (n + 2), s => by
      rw [List.range'_succ]
      refine List.chain'_cons'.2 ⟨?_, chain_succ_range' (n + 1) (s + 1)⟩
      intro y hy
      rw [List.range'_succ] at hy
      simp only [List.head?_cons, Option.mem_def, Option.some.injEq] at hy
      omega

theorem head?_range' (s n : ℕ) (h : 0 < n) :
    (List.range' s n).head? = some s := by
  cases n with
  | zero => omega
  | succ m => rw [List.range'_succ]; rfl

theorem getLast?_range' : ∀ (n s : ℕ), 0 < n →
    (List.range' s n).getLast? = some (s + n - 1)
  | 0, _, h => by omega
  | 1, s, _ => by simp [List.range'_succ]
  | (n + 2), s, _ => by
      rw [List.range'_succ, List.range'_succ, List.getLast?_cons_cons,
        ← List.range'_succ]
      rw [getLast?_range' (n + 1) (s + 1) (by omega)]
      congr 1
      omega

/-- C7 counterexample: an existing product whose last observed event predates
the analysis window start; the dense timeline is empty and spans nothing, so
it does not reach from the window start to the latest event. -/
theorem claim7_counterexample :
    (pull_sales (mkState { emptyRecord with dfNEW := [(21564000, some 10)] })).1.existsFlag
      = true ∧
    minutelyTable { emptyRecord with dfNEW := [(21564000, some 10)] } 0 21565500 = [] ∧
    windowStart 21565500 0 ∉
      (minutelyTable { emptyRecord with dfNEW := [(21564000, some 10)] } 0 21565500).map
        Prod.fst := by
  refine ⟨by decide, by decide, by decide⟩

/-- C7 amended: provided the latest observed event does not predate the
window-start date, the dense timeline's index is exactly the minute grid from
the window-start midnight to the latest event: strictly increasing, with
consecutive entries exactly one minute apart, starting at the window start
and ending at the latest event.  (When the latest event is older than the
window start the timeline is empty.) -/
theorem claim7_amended (rcd : ProductRecord) (days t : ℕ)
    (h : windowStart t days ≤ maxKey (withSalesCols (shortTableOf rcd))) :
    (minutelyTable rcd days t).map Prod.fst =
      minuteRange (windowStart t days) (maxKey (withSalesCols (shortTableOf rcd))) ∧
    List.Chain' (fun a b => b = a + 1) ((minutelyTable rcd days t).map Prod.fst) ∧
    List.Chain' (fun a b => a < b) ((minutelyTable rcd days t).map Prod.fst) ∧
    ((minutelyTable rcd days t).map Prod.fst).head? = some (windowStart t days) ∧
    ((minutelyTable rcd days t).map Prod.fst).getLast? =
      some (maxKey (withSalesCols (shortTableOf rcd))) := by
  have hk : (minutelyTable rcd days t).map Prod.fst =
      minuteRange (windowStart t days) (maxKey (withSalesCols (shortTableOf rcd))) :=
    minutelyOf_keys (withSalesCols (shortTableOf rcd)) days t
  have hrange : minuteRange (windowStart t days)
      (maxKey (withSalesCols (shortTableOf rcd))) =
      List.range' (windowStart t days)
        (maxKey (withSalesCols (shortTableOf rcd)) + 1 - windowStart t days) := by
    unfold minuteRange
    rw [if_pos h]
  refine ⟨hk, ?_, ?_, ?_, ?_⟩
  · rw [hk, hrange]
    exact chain_succ_range' _ _
  · rw [hk, hrange]
    exact (chain_succ_range' _ _).imp (fun a b e => by omega)
  · rw [hk, hrange]
    exact head?_range' _ _ (by omega)
  · rw [hk, hrange]
    rw [getLast?_range' _ _ (by omega)]
    congr 1
    omega

/-- witness for C7: a record observed at two minutes of the current day. -/
theorem claim7_amended_witness :
    windowStart 21564010 0 ≤ maxKey (withSalesCols (shortTableOf
      { emptyRecord with dfNEW := [(21564000, some 10), (21564005, some 10)] })) ∧
    ((minutelyTable { emptyRecord with
        dfNEW := [(21564000, some 10), (21564005, some 10)] } 0 21564010).map Prod.fst).head?
      = some (windowStart 21564010 0) ∧
    ((minutelyTable { emptyRecord with
        dfNEW := [(21564000, some 10), (21564005, some 10)] } 0 21564010).map Prod.fst).getLast?
      = some (maxKey (withSalesCols (shortTableOf { emptyRecord with
          dfNEW := [(21564000, some 10), (21564005, some 10)] }))) :=
  ⟨by decide,
   (claim7_amended { emptyRecord with
      dfNEW := [(21564000, some 10), (21564005, some 10)] } 0 21564010 (by decide)).2.2.2.1,
   (claim7_amended { emptyRecord with
      dfNEW := [(21564000, some 10), (21564005, some 10)] } 0 21564010 (by decide)).2.2.2.2⟩

/-! ### C9: the monthly-sold normalization to per-minute unit sales -/

/-- the estimated-sales columns are the monthly-sold columns divided by
`60 * 24 * 30 = 43200`. -/
def qrel (r : Row) : Prop :=
  r.salesMin = r.msMin.map (fun v => qdiv v 43200) ∧
  r.salesMax = r.msMax.map (fun v => qdiv v 43200)

theorem qrel_empty : qrel Row.empty := ⟨rfl, rfl⟩

theorem qrel_orElse (a b : Row) (ha : qrel a) (hb : qrel b) :
    qrel (Row.orElse a b) := by
  constructor
  · show oOr a.salesMin b.salesMin = (oOr a.msMin b.msMin).map _
    cases hm : a.msMin with
    | some v =>
        have : a.salesMin = some (qdiv v 43200) := by rw [ha.1, hm]; rfl
        rw [this]
        rfl
    | none =>
        have : a.salesMin = none := by rw [ha.1, hm]; rfl
        rw [this]
        exact hb.1
  · show oOr a.salesMax b.salesMax = (oOr a.msMax b.msMax).map _
    cases hm : a.msMax with
    | some v =>
        have : a.salesMax = some (qdiv v 43200) := by rw [ha.2, hm]; rfl
        rw [this]
        rfl
    | none =>
        have : a.salesMax = none := by rw [ha.2, hm]; rfl
        rw [this]
        exact hb.2

theorem withSalesCols_qrel (tbl : Table) : ∀ p ∈ withSalesCols tbl, qrel p.2 := by
  intro p hp
  obtain ⟨q, _, rfl⟩ := List.mem_map.1 hp
  exact ⟨rfl, rfl⟩

theorem blockAdjust_qrel (r : Row) (h : qrel r) : qrel (blockAdjust r) := by
  unfold blockAdjust
  split
  · exact ⟨h.1, h.2⟩
  · exact h

/-- every row of the dense minute table satisfies the normalization. -/
theorem minutelyTable_qrel (rcd : ProductRecord) (days t : ℕ) :
    ∀ p ∈ minutelyTable rcd days t, qrel p.2 := by
  intro p hp
  unfold minutelyTable minutelyOf at hp
  obtain ⟨q, hq, rfl⟩ := List.mem_map.1 hp
  refine blockAdjust_qrel _ ?_
  refine ffillTable_pres qrel_orElse qrel_empty ?_ q hq
  intro p2 h2
  obtain ⟨m, _, rfl⟩ := List.mem_map.1 h2
  exact getD_lookupRow (withSalesCols_qrel (shortTableOf rcd)) qrel_empty m

theorem map_salesMin_of_replicate :
    ∀ (rows : List Row) (n : ℕ) (v : ℚ), (∀ r ∈ rows, qrel r) →
      rows.map (fun r => r.msMin) = List.replicate n (some v) →
      rows.map (fun r => r.salesMin) = List.replicate n (some (qdiv v 43200)) := by
  intro rows
  induction rows with
  | nil =>
      intro n v _ h
      simp only [List.map_nil] at h
      have hn : n = 0 := by
        cases n with
        | zero => rfl
        | succ m => rw [List.replicate_succ] at h; cases h
      subst hn
      rfl
  | cons r rest ih =>
      intro n v hall h
      cases n with
      | zero => simp at h
      | succ m =>
          rw [List.replicate_succ] at h
          simp only [List.map_cons, List.cons.injEq] at h
          obtain ⟨h1, h2⟩ := h
          have hr : qrel r := hall r (List.mem_cons_self _ _)
          have hrest : ∀ x ∈ rest, qrel x :=
            fun x hx => hall x (List.mem_cons.2 (Or.inr hx))
          rw [List.replicate_succ]
          simp only [List.map_cons, List.cons.injEq]
          refine ⟨?_, ih m v hrest h2⟩
          rw [hr.1, h1]
          rfl

theorem foldl_qadd_replicate (c : ℚ) :
    ∀ (n : ℕ) (acc : ℚ),
      List.foldl (fun a x => qadd a (oget x)) acc (List.replicate n (some c)) =
        acc + n * c := by
  intro n
  induction n with
  | zero => intro acc; simp
  | succ m ih =>
      intro acc
      rw [List.replicate_succ, List.foldl_cons, ih]
      show qadd acc (oget (some c)) + (m : ℚ) * c = acc + ((m + 1 : ℕ) : ℚ) * c
      rw [qadd_eq, show oget (some c) = c from rfl]
      push_cast
      ring

theorem optSum_replicate (n : ℕ) (c : ℚ) :
    optSum (List.replicate n (some c)) = n * c := by
  unfold optSum
  rw [foldl_qadd_replicate c n 0]
  ring

/-- C9: every row of the dense per-minute timeline carries estimated min
(resp. max) unit sales equal to its forward-filled monthly-sold min (resp.
max) divided by `43200 = 60 * 24 * 30`; consequently a calendar-day group of
`n` rows with constant monthly-sold min `v` sums to `n * (v / 43200)` in the
daily aggregation, which for a fully covered day (`n = 1440`) is exactly
`v / 30`. -/
theorem claim9_sales_norm (rcd : ProductRecord) (days t D n : ℕ) (v : ℚ)
    (h : (dayRows (minutelyTable rcd days t) D).map (fun r => r.msMin) =
      List.replicate n (some v)) :
    (∀ p ∈ minutelyTable rcd days t,
        p.2.salesMin = p.2.msMin.map (fun w => w / 43200) ∧
        p.2.salesMax = p.2.msMax.map (fun w => w / 43200)) ∧
    optSum ((dayRows (minutelyTable rcd days t) D).map (fun r => r.salesMin)) =
      n * (v / 43200) ∧
    (n = 1440 →
      optSum ((dayRows (minutelyTable rcd days t) D).map (fun r => r.salesMin)) =
        v / 30) := by
  have hq := minutelyTable_qrel rcd days t
  have ef : (fun w : ℚ => qdiv w 43200) = (fun w : ℚ => w / 43200) :=
    funext fun w => qdiv_eq w 43200
  have hrows : ∀ r ∈ dayRows (minutelyTable rcd days t) D, qrel r := by
    intro r hr
    obtain ⟨p, hp, rfl⟩ := List.mem_map.1 hr
    exact hq p (List.mem_filter.1 hp).1
  have hsum : optSum ((dayRows (minutelyTable rcd days t) D).map
      (fun r => r.salesMin)) = n * (v / 43200) := by
    rw [map_salesMin_of_replicate _ n v hrows h, optSum_replicate, qdiv_eq]
  refine ⟨?_, hsum, ?_⟩
  · intro p hp
    have hr := hq p hp
    exact ⟨by rw [hr.1, ef], by rw [hr.2, ef]⟩
  · intro hn
    subst hn
    rw [hsum]
    push_cast
    ring

/-- a record whose analysis window is 300 minutes of one calendar day with a
constant monthly-sold value of 300 units. -/
def recC9 : ProductRecord :=
  { emptyRecord with dfNEW := [(21565440, some 10), (21565739, some 10)],
                     monthlySoldHistory := some [1440, 300] }

/-- witness for C9: a 300-minute day group with constant monthly-sold 300
sums to `300 * (300 / 43200)` estimated min units. -/
theorem claim9_sales_norm_witness :
    ((dayRows (minutelyTable recC9 0 21565800) 14976).map (fun r => r.msMin) =
      List.replicate 300 (some (300 : ℚ))) ∧
    optSum ((dayRows (minutelyTable recC9 0 21565800) 14976).map
      (fun r => r.salesMin)) = 300 * ((300 : ℚ) / 43200) :=
  ⟨by decide, (claim9_sales_norm recC9 0 21565800 14976 300 300 (by decide)).2.1⟩

/-! ### C1: the item-not-found short circuit -/

/-- C1: when the record carries no price-history series, the reconstruction
leaves `exists` false, every `pull_*` stage returns `None`, the daily
generator stores no pivot and no short history, the monthly summary is never
built, and the window summarizer computes none of its headline figures.  (In
this embedding every stage is a total function, so no exception can escape.) -/
theorem claim1_not_found (rcd : ProductRecord) (h : rcd.dfNEW = []) (d t : ℕ) :
    (pull_sales (mkState rcd)).1.existsFlag = false ∧
    (pull_sales (mkState rcd)).2 = none ∧
    (pull_coupons (mkState rcd)).2 = none ∧
    (pull_lds (mkState rcd)).2 = none ∧
    (pull_bsr (mkState rcd)).2 = none ∧
    (pull_monthly_sold (mkState rcd)).2 = none ∧
    (generate_daily_sales (mkState rcd) d t).existsFlag = false ∧
    (generate_daily_sales (mkState rcd) d t).pivot = none ∧
    (generate_daily_sales (mkState rcd) d t).shortHistory = none ∧
    (generate_daily_sales (mkState rcd) d t).salesHistoryMonthly = none ∧
    (generate_monthly_summary (generate_daily_sales (mkState rcd) d t) t).summary = none ∧
    (get_last_days (mkState rcd) d t).lastDays = none ∧
    (get_last_days (mkState rcd) d t).minSales = none ∧
    (get_last_days (mkState rcd) d t).maxSales = none ∧
    (get_last_days (mkState rcd) d t).avgSales = none := by
  simp [pull_sales, pull_coupons, pull_lds, pull_bsr, pull_monthly_sold,
    generate_daily_sales, get_last_days, generate_monthly_summary, query,
    mkState, h]

/-- a record that carries coupon, lightning-deal, and monthly-sold series but
no price history. -/
def recC1 : ProductRecord :=
  { emptyRecord with couponHistory := some [5, -10, 0],
                     dfLIGHTNING := some [(21564005, some 42)],
                     monthlySoldHistory := some [1440, 300] }

/-- witness for C1: the short circuit on a record rich in other series. -/
theorem claim1_not_found_witness :
    recC1.dfNEW = [] ∧
    ((pull_sales (mkState recC1)).1.existsFlag = false ∧
     (pull_sales (mkState recC1)).2 = none ∧
     (pull_coupons (mkState recC1)).2 = none ∧
     (pull_lds (mkState recC1)).2 = none ∧
     (pull_bsr (mkState recC1)).2 = none ∧
     (pull_monthly_sold (mkState recC1)).2 = none ∧
     (generate_daily_sales (mkState recC1) 30 21565800).existsFlag = false ∧
     (generate_daily_sales (mkState recC1) 30 21565800).pivot = none ∧
     (generate_daily_sales (mkState recC1) 30 21565800).shortHistory = none ∧
     (generate_daily_sales (mkState recC1) 30 21565800).salesHistoryMonthly = none ∧
     (generate_monthly_summary
        (generate_daily_sales (mkState recC1) 30 21565800) 21565800).summary = none ∧
     (get_last_days (mkState recC1) 30 21565800).lastDays = none ∧
     (get_last_days (mkState recC1) 30 21565800).minSales = none ∧
     (get_last_days (mkState recC1) 30 21565800).maxSales = none ∧
     (get_last_days (mkState recC1) 30 21565800).avgSales = none) :=
  ⟨rfl, claim1_not_found recC1 rfl 30 21565800⟩

/-! ### C8: repeatability of the reconstruction -/

/-- C8 counterexample: the same record reconstructed with the same window on
two different current dates produces different daily pivots — the output is
a function of the current date as well, because the analysis window starts
at `(today - window_days).date()`. -/
theorem claim8_counterexample :
    (reconstruct (mkState { emptyRecord with dfNEW := [(21564000, some 10)] })
        0 21564060).pivot ≠
      (reconstruct (mkState { emptyRecord with dfNEW := [(21564000, some 10)] })
        0 21565500).pivot := by
  decide

/-- C8 amended: at a fixed current date, reconstructing twice is identical to
reconstructing once — every data-derived output (daily pivot, monthly
summary, retained short history, merged monthly history, window table and
window statistics) of the second run over the mutated state equals the
first run's; the output is a pure function of the record, the window, and
the current date. -/
theorem claim8_amended (rcd : ProductRecord) (d t : ℕ) :
    (reconstruct (reconstruct (mkState rcd) d t) d t).pivot =
      (reconstruct (mkState rcd) d t).pivot ∧
    (reconstruct (reconstruct (mkState rcd) d t) d t).summary =
      (reconstruct (mkState rcd) d t).summary ∧
    (reconstruct (reconstruct (mkState rcd) d t) d t).shortHistory =
      (reconstruct (mkState rcd) d t).shortHistory ∧
    (reconstruct (reconstruct (mkState rcd) d t) d t).salesHistoryMonthly =
      (reconstruct (mkState rcd) d t).salesHistoryMonthly ∧
    (reconstruct (reconstruct (mkState rcd) d t) d t).lastDays =
      (reconstruct (mkState rcd) d t).lastDays ∧
    (reconstruct (reconstruct (mkState rcd) d t) d t).minSales =
      (reconstruct (mkState rcd) d t).minSales ∧
    (reconstruct (reconstruct (mkState rcd) d t) d t).maxSales =
      (reconstruct (mkState rcd) d t).maxSales ∧
    (reconstruct (reconstruct (mkState rcd) d t) d t).avgSales =
      (reconstruct (mkState rcd) d t).avgSales ∧
    (reconstruct (reconstruct (mkState rcd) d t) d t).fullPriceAvg =
      (reconstruct (mkState rcd) d t).fullPriceAvg ∧
    (reconstruct (reconstruct (mkState rcd) d t) d t).avgPrice =
      (reconstruct (mkState rcd) d t).avgPrice ∧
    (reconstruct (reconstruct (mkState rcd) d t) d t).existsFlag =
      (reconstruct (mkState rcd) d t).existsFlag := by
  cases h : rcd.dfNEW with
  | nil =>
      simp [reconstruct, generate_monthly_summary, get_last_days,
        generate_daily_sales, pull_monthly_sold, pull_bsr, pull_lds,
        pull_coupons, pull_sales, query, mkState, h]
  | cons a l =>
      simp [reconstruct, generate_monthly_summary, get_last_days,
        generate_daily_sales, pull_monthly_sold, pull_bsr, pull_lds,
        pull_coupons, pull_sales, query, mkState, h]

end KeepaModel
